import Mathlib

/-!
A shallow embedding of `csv-file-copy.py`, a batch utility that copies files
named in a CSV column from a source directory to a target directory.

Paths are modelled as strings over POSIX-style separators; the filesystem is a
finite set of file paths together with a finite set of directory paths.  The
library collaborators used by the script (`os.path.join`, `os.path.abspath`,
`os.path.exists`, `csv.DictReader`, `OrderedDict.fromkeys`, `shutil.copy`) are
translated below by their documented semantics.
-/

set_option autoImplicit false

namespace CsvFileCopy

/-- Whether a path string begins with the separator (`str.startswith('/')`). -/
def startsWithSlash (s : String) : Bool :=
  s.data.headD ' ' == '/'

/-- Whether a path string ends with the separator (`str.endswith('/')`). -/
def endsWithSlash (s : String) : Bool :=
  s.data.reverse.headD ' ' == '/'

/-- Model of `os.path.join(a, b)` for POSIX paths: an absolute `b` replaces `a`;
otherwise a separator is inserted unless `a` is empty or already ends in one. -/
def pjoin (a b : String) : String :=
  if startsWithSlash b then b
  else if a == "" || endsWithSlash a then a ++ b
  else a ++ "/" ++ b

/-- Model of `os.path.basename`: the suffix after the last separator (the whole string
when no separator occurs, the empty string when the path ends in one). -/
def basename (p : String) : String :=
  String.mk ((p.data.reverse.takeWhile (fun c => c != '/')).reverse)

/-- Drop every trailing separator of a path (how the filesystem resolves a
path written with trailing slashes to the directory it names). -/
def stripTrailingSlashes (p : String) : String :=
  String.mk ((p.data.reverse.dropWhile (fun c => c == '/')).reverse)

/-- Helper for `str.split('/')`: accumulates the current component reversed. -/
def splitSlashAux (cur : List Char) : List Char → List (List Char)
  | [] => [cur.reverse]
  | c :: cs =>
    if c == '/' then cur.reverse :: splitSlashAux [] cs
    else splitSlashAux (c :: cur) cs

/-- Model of `str.split('/')`. -/
def splitSlash (s : String) : List String :=
  (splitSlashAux [] s.data).map String.mk

/-- The component loop of `posixpath.normpath`: drops empty and `.` components,
resolves `..` against the accumulated prefix (kept reversed), keeping `..`
components that cannot be resolved. -/
def normAux (hasInitialSlashes : Bool) : List String → List String → List String
  | newComps, [] => newComps.reverse
  | newComps, comp :: rest =>
    if comp == "" || comp == "." then
      normAux hasInitialSlashes newComps rest
    else if comp != ".." || (!hasInitialSlashes && newComps.isEmpty) ||
        (!newComps.isEmpty && newComps.headD "" == "..") then
      normAux hasInitialSlashes (comp :: newComps) rest
    else
      normAux hasInitialSlashes newComps.tail rest

/-- Model of `posixpath.normpath`: collapse repeated separators and resolve `.` and
`..` components; exactly two leading slashes are preserved. -/
def normpath (p : String) : String :=
  if p == "" then "."
  else
    let slashes : Nat :=
      if startsWithSlash p then
        if p.data.take 2 == ['/', '/'] && p.data.take 3 != ['/', '/', '/'] then 2 else 1
      else 0
    let comps := normAux (slashes != 0) [] (splitSlash p)
    let joined := String.mk (List.replicate slashes '/' ++ List.intercalate ['/'] (comps.map String.data))
    if joined == "" then "." else joined

/-- Model of `os.path.abspath` with an explicit current working directory: join a
relative path onto the cwd, then normalise. -/
def abspath (cwd p : String) : String :=
  if startsWithSlash p then normpath p else normpath (pjoin cwd p)

/-- The platforms the script distinguishes: `sys.platform == "win32"` versus
everything else (macOS, Linux, ...). -/
inductive Platform
  | win32
  | posixLike
deriving DecidableEq

/-- Model of `is_long_path_available` (lines 8-27): on win32 read the registry value
`LongPathsEnabled` (`none` models the `FileNotFoundError` when the value is
absent, in which case the local default `0` is kept) and convert it with
`bool`; on every other platform the limitation does not exist. -/
def is_long_path_available (platform : Platform) (longPathsReg : Option Nat) : Bool :=
  match platform with
  | .win32 => longPathsReg.getD 0 != 0
  | .posixLike => true

/-- Model of `check_path_length` (lines 30-31). -/
def check_path_length (platform : Platform) (longPathsReg : Option Nat) (path : String) : Bool :=
  is_long_path_available platform longPathsReg || decide (path.length < 260)

/-- The filesystem: the set of existing regular-file paths and the set of
existing directory paths, each stored without trailing separators. -/
structure FS where
  files : List String
  dirs : List String
deriving DecidableEq

/-- Model of `os.path.exists`: a path with a trailing separator resolves only to a
directory; otherwise the path may name a file or a directory. -/
def FS.exists (fs : FS) (p : String) : Bool :=
  if endsWithSlash p then decide (stripTrailingSlashes p ∈ fs.dirs)
  else decide (p ∈ fs.files ∨ p ∈ fs.dirs)

/-- Model of `os.path.isdir`. -/
def FS.isdir (fs : FS) (p : String) : Bool :=
  decide (stripTrailingSlashes p ∈ fs.dirs)

/-- Model of `dict(zip(fieldnames, row))` as built by `csv.DictReader.__next__`,
including the `restval = None` padding for rows shorter than the header: the
association list pairs each header name with the field at the same position,
`none` past the end of the row; a key written later overwrites an earlier
one, which the lookup below realises by taking the last binding. -/
def zipDict (fieldnames row : List String) : List (String × Option String) :=
  List.zip fieldnames (row.map some ++ List.replicate fieldnames.length none)

/-- Dictionary lookup (last binding wins); `none` is Python's `KeyError`. -/
def dictLookupLast (d : List (String × Option String)) (k : String) : Option (Option String) :=
  (d.reverse.find? (fun e => e.1 == k)).map (fun e => e.2)

/-- How extraction can abort the run. -/
inductive ExtractError
  | keyError
  | typeErr
deriving DecidableEq

/-- Model of `files = [row[args.column_name] for row in reader]` (line 69) over
`csv.DictReader`: the first row of the CSV is the header, blank rows are
skipped, and the comprehension stops at the first `KeyError`.  A CSV with no
rows at all yields no dictionaries, hence no `KeyError`. -/
def extractRaw (rows : List (List String)) (col : String) : Except Unit (List (Option String)) :=
  match rows with
  | [] => Except.ok []
  | fieldnames :: data =>
    (data.filter (fun r => r != [])).mapM (fun r =>
      match dictLookupLast (zipDict fieldnames r) col with
      | some v => Except.ok v
      | none => Except.error ())

/-- Lines 65-73 up to deduplication: a `KeyError` becomes the column usage
error; a `none` cell (row shorter than the header) later reaches
`os.path.join` and raises an uncaught `TypeError`, aborting the run, which is
modelled as `typeErr` (the progress such an aborted run had already made is
not modelled). -/
def extractFiles (rows : List (List String)) (col : String) : Except ExtractError (List String) :=
  match extractRaw rows col with
  | .error _ => .error .keyError
  | .ok raw =>
    match raw.mapM id with
    | none => .error .typeErr
    | some values => .ok values

/-- First-occurrence-order deduplication, keeping the set of keys already
inserted: how `OrderedDict.fromkeys` processes the keys left to right. -/
def dedupFirstAux (seen : List String) : List String → List String
  | [] => []
  | x :: xs =>
    if x ∈ seen then dedupFirstAux seen xs
    else x :: dedupFirstAux (x :: seen) xs

/-- Model of `list(OrderedDict.fromkeys(files))` (line 73): first-occurrence-order
deduplication. -/
def dedupFirst (l : List String) : List String :=
  dedupFirstAux [] l

/-- Index of the first occurrence of `a` in a list (length of the list when
`a` does not occur). -/
def firstPos (a : String) : List String → Nat
  | [] => 0
  | b :: l => if b == a then 0 else firstPos a l + 1

/-- A well-behaved filename: non-empty and free of path separators. -/
def goodName (f : String) : Bool :=
  f != "" && !f.data.contains '/'

/-- The run configuration produced by the argument resolver (lines 38-50),
together with the ambient platform state the script reads: the platform, the
registry value consulted by `is_long_path_available`, and the current working
directory used by `os.path.abspath`. -/
structure Config where
  csv_file : String
  source_dir : String
  target_dir : String
  column_name : String
  quiet : Bool
  overwrite : Bool
  dry_run : Bool
  platform : Platform
  longPathsReg : Option Nat
  cwd : String
deriving DecidableEq

/-- The four outcome counters (lines 75-78). -/
structure Counters where
  copied : Nat
  not_found : Nat
  already_exist : Nat
  path_error : Nat
deriving DecidableEq

/-- The mutually exclusive per-filename classification. -/
inductive Outcome
  | copied
  | notFound
  | alreadyExists
  | pathError
deriving DecidableEq

/-- The decision logic of one iteration of the dispatch loop (lines 79-106):
the overwrite/target-existence guard first, then source existence together
with the path-length check on the absolute destination path, then source
existence alone, else not-found. -/
def classify (cfg : Config) (fs : FS) (file : String) : Outcome :=
  let source_file_exists := fs.exists (pjoin cfg.source_dir file)
  if !cfg.overwrite && fs.exists (pjoin cfg.target_dir file) then .alreadyExists
  else if source_file_exists &&
      check_path_length cfg.platform cfg.longPathsReg (abspath cfg.cwd (pjoin cfg.target_dir file)) then
    .copied
  else if source_file_exists then .pathError
  else .notFound

/-- The destination path written by `shutil.copy(src, dst)`: when `dst` is a
directory the file is copied into it under `basename(src)`, otherwise `dst`
itself is (over)written. -/
def copyDestination (fs : FS) (src dst : String) : String :=
  if fs.isdir dst then pjoin dst (basename src) else dst

/-- Model of `shutil.copy(src, dst)` (line 93): the byte-level copy primitive is an
external collaborator modelled as succeeding, so its sole filesystem effect is
that the destination path now exists as a file. -/
def shutilCopy (fs : FS) (src dst : String) : FS :=
  { fs with files := copyDestination fs src dst :: fs.files }

/-- One run-state of the dispatch loop: the filesystem, the four counters, the
log of performed copies as (source path, written destination path) pairs, and
the standard output produced so far. -/
structure RunState where
  fs : FS
  counters : Counters
  copies : List (String × String)
  output : List String
deriving DecidableEq

/-- Model of `print` guarded by `if not args.quiet`. -/
def emit (cfg : Config) (st : RunState) (line : String) : RunState :=
  if cfg.quiet then st else { st with output := st.output ++ [line] }

/-- The body of the dispatch loop (lines 79-106) for one filename. -/
def stepFile (cfg : Config) (st : RunState) (file : String) : RunState :=
  match classify cfg st.fs file with
  | .alreadyExists =>
    let st := emit cfg st ("Skipping \"" ++ file ++ "\"")
    { st with counters := { st.counters with already_exist := st.counters.already_exist + 1 } }
  | .copied =>
    let st := emit cfg st ("Copying \"" ++ file ++ "\"...")
    let st :=
      if cfg.dry_run then st
      else
        let src := pjoin cfg.source_dir file
        { st with
          fs := shutilCopy st.fs src cfg.target_dir,
          copies := st.copies ++ [(src, copyDestination st.fs src cfg.target_dir)] }
    { st with counters := { st.counters with copied := st.counters.copied + 1 } }
  | .pathError =>
    let st := emit cfg st ("Path length too long, skipping: \"" ++ file ++ "\"")
    { st with counters := { st.counters with path_error := st.counters.path_error + 1 } }
  | .notFound =>
    let st := emit cfg st ("File \"" ++ file ++ "\" does not exist")
    { st with counters := { st.counters with not_found := st.counters.not_found + 1 } }

/-- The dispatch loop over the deduplicated filenames. -/
def dispatch (cfg : Config) (st : RunState) (files : List String) : RunState :=
  files.foldl (stepFile cfg) st

/-- How Python prints a `bool`. -/
def pyBool (b : Bool) : String :=
  if b then "True" else "False"

/-- The configuration echo block (lines 52-59). -/
def configEcho (cfg : Config) : List String :=
  if cfg.quiet then [] else
    ["CSV file: \"" ++ cfg.csv_file ++ "\"",
     "Column to read: \"" ++ cfg.column_name ++ "\"",
     "Source directory: \"" ++ cfg.source_dir ++ "\"",
     "Destination directory: \"" ++ cfg.target_dir ++ "\"",
     "Overwrite existing: " ++ pyBool cfg.overwrite,
     "Dry Run: " ++ pyBool cfg.dry_run,
     ""]

/-- The summary block (lines 108-118): the copied count is printed
unconditionally, the other three only when non-zero. -/
def summaryLines (cfg : Config) (c : Counters) : List String :=
  if cfg.quiet then [] else
    ["", "Operation complete", toString c.copied ++ " files copied"]
    ++ (if c.not_found != 0 then [toString c.not_found ++ " files not found in source"] else [])
    ++ (if c.already_exist != 0 then [toString c.already_exist ++ " files already exist in destination"] else [])
    ++ (if c.path_error != 0 then
          [toString c.path_error ++ " files have path lengths that are too long for the destination"]
        else [])

/-- How a run ends: `parser.error` (diagnostic plus non-zero exit) with the
stdout emitted so far, an uncaught `TypeError` from a `None` cell, or normal
completion with the final run-state. -/
inductive MainResult
  | usageError (stdout : List String) (message : String)
  | fatalTypeError
  | ok (st : RunState)
deriving DecidableEq

/-- Model of `main` (lines 34-118): echo the configuration, validate that the three
paths exist, extract and deduplicate the filenames, run the dispatch loop and
append the summary. -/
def main (cfg : Config) (rows : List (List String)) (fs0 : FS) : MainResult :=
  let out0 := configEcho cfg
  if !fs0.exists cfg.csv_file then
    .usageError out0 ("\"" ++ cfg.csv_file ++ "\" does not exist")
  else if !fs0.exists cfg.source_dir then
    .usageError out0 ("\"" ++ cfg.source_dir ++ "\" does not exist")
  else if !fs0.exists cfg.target_dir then
    .usageError out0 ("\"" ++ cfg.target_dir ++ "\" does not exist")
  else
    match extractFiles rows cfg.column_name with
    | .error .keyError => .usageError out0 ("Column \"" ++ cfg.column_name ++ "\" does not exist")
    | .error .typeErr => .fatalTypeError
    | .ok values =>
      let files := dedupFirst values
      let st := dispatch cfg { fs := fs0, counters := ⟨0, 0, 0, 0⟩, copies := [], output := out0 } files
      .ok { st with output := st.output ++ summaryLines cfg st.counters }

/-- Whether a run completed normally. -/
def isOk : MainResult → Bool
  | .ok _ => true
  | _ => false

/-- Whether a run ended in `parser.error` (non-zero exit before the loop). -/
def isUsageError : MainResult → Bool
  | .usageError _ _ => true
  | _ => false

/-- The final counters of a completed run (zero otherwise). -/
def countersOf : MainResult → Counters
  | .ok st => st.counters
  | _ => ⟨0, 0, 0, 0⟩

/-- The final filesystem of a completed run. -/
def fsOf : MainResult → Option FS
  | .ok st => some st.fs
  | _ => none

/-- The copies performed by a completed run. -/
def copiesOf : MainResult → List (String × String)
  | .ok st => st.copies
  | _ => []

/-- The sum of the four counters. -/
def sumCounters (c : Counters) : Nat :=
  c.copied + c.not_found + c.already_exist + c.path_error

/-- A run result with its standard output erased: what remains is the exit
mode, the diagnostic, the filesystem, the counters and the performed copies. -/
def MainResult.silent : MainResult → MainResult
  | .usageError _ m => .usageError [] m
  | .fatalTypeError => .fatalTypeError
  | .ok st => .ok { st with output := [] }

/-- Classification-only folding of the dispatch loop against one fixed
filesystem: the counters a run accumulates when no iteration disturbs the
checks of a later one. -/
def countOutcomes (cfg : Config) (fs : FS) (c : Counters) : List String → Counters
  | [] => c
  | f :: files =>
    match classify cfg fs f with
    | .alreadyExists => countOutcomes cfg fs { c with already_exist := c.already_exist + 1 } files
    | .copied => countOutcomes cfg fs { c with copied := c.copied + 1 } files
    | .pathError => countOutcomes cfg fs { c with path_error := c.path_error + 1 } files
    | .notFound => countOutcomes cfg fs { c with not_found := c.not_found + 1 } files

/-! ## Deduplication lemmas -/

theorem mem_dedupFirstAux (l : List String) :
    ∀ (seen : List String) (a : String), a ∈ dedupFirstAux seen l ↔ a ∈ l ∧ a ∉ seen := by
  induction l with
  | nil => intro seen a; simp [dedupFirstAux]
  | cons x xs ih =>
    intro seen a
    by_cases hx : x ∈ seen
    · rw [dedupFirstAux, if_pos hx, ih]
      constructor
      · rintro ⟨h1, h2⟩
        exact ⟨List.mem_cons_of_mem _ h1, h2⟩
      · rintro ⟨h1, h2⟩
        rcases List.mem_cons.mp h1 with rfl | h1
        · exact absurd hx h2
        · exact ⟨h1, h2⟩
    · rw [dedupFirstAux, if_neg hx]
      simp only [List.mem_cons, ih]
      constructor
      · rintro (rfl | ⟨h1, h2⟩)
        · exact ⟨Or.inl rfl, hx⟩
        · exact ⟨Or.inr h1, fun hc => h2 (Or.inr hc)⟩
      · rintro ⟨rfl | h1, h2⟩
        · exact Or.inl rfl
        · by_cases hax : a = x
          · exact Or.inl hax
          · exact Or.inr ⟨h1, by simp [List.mem_cons, hax, h2]⟩

theorem mem_dedupFirst (l : List String) (a : String) : a ∈ dedupFirst l ↔ a ∈ l := by
  rw [dedupFirst, mem_dedupFirstAux]
  simp

theorem nodup_dedupFirstAux (l : List String) :
    ∀ seen : List String, (dedupFirstAux seen l).Nodup := by
  induction l with
  | nil => intro seen; simp [dedupFirstAux]
  | cons x xs ih =>
    intro seen
    by_cases hx : x ∈ seen
    · rw [dedupFirstAux, if_pos hx]
      exact ih seen
    · rw [dedupFirstAux, if_neg hx]
      refine List.nodup_cons.mpr ⟨?_, ih (x :: seen)⟩
      intro hmem
      exact ((mem_dedupFirstAux xs (x :: seen) x).mp hmem).2 (List.mem_cons_self x seen)

theorem nodup_dedupFirst (l : List String) : (dedupFirst l).Nodup :=
  nodup_dedupFirstAux l []

theorem firstPos_cons_self (a : String) (l : List String) : firstPos a (a :: l) = 0 := by
  simp [firstPos]

theorem firstPos_cons_ne (a x : String) (l : List String) (h : x ≠ a) :
    firstPos a (x :: l) = firstPos a l + 1 := by
  simp [firstPos, h]

theorem pairwise_firstPos_dedupFirstAux (l : List String) :
    ∀ seen : List String,
      (dedupFirstAux seen l).Pairwise (fun a b => firstPos a l < firstPos b l) := by
  induction l with
  | nil => intro seen; simp [dedupFirstAux]
  | cons x xs ih =>
    intro seen
    by_cases hx : x ∈ seen
    · rw [dedupFirstAux, if_pos hx]
      refine (ih seen).imp_of_mem ?_
      intro a b ha hb hab
      have ha' := (mem_dedupFirstAux xs seen a).mp ha
      have hb' := (mem_dedupFirstAux xs seen b).mp hb
      have hax : x ≠ a := fun h => ha'.2 (h ▸ hx)
      have hbx : x ≠ b := fun h => hb'.2 (h ▸ hx)
      rw [firstPos_cons_ne _ _ _ hax, firstPos_cons_ne _ _ _ hbx]
      omega
    · rw [dedupFirstAux, if_neg hx]
      rw [List.pairwise_cons]
      constructor
      · intro b hb
        have hb' := (mem_dedupFirstAux xs (x :: seen) b).mp hb
        have hbx : x ≠ b := fun h => hb'.2 (h ▸ List.mem_cons_self x seen)
        rw [firstPos_cons_self, firstPos_cons_ne _ _ _ hbx]
        omega
      · refine (ih (x :: seen)).imp_of_mem ?_
        intro a b ha hb hab
        have ha' := (mem_dedupFirstAux xs (x :: seen) a).mp ha
        have hb' := (mem_dedupFirstAux xs (x :: seen) b).mp hb
        have hax : x ≠ a := fun h => ha'.2 (h ▸ List.mem_cons_self x seen)
        have hbx : x ≠ b := fun h => hb'.2 (h ▸ List.mem_cons_self x seen)
        rw [firstPos_cons_ne _ _ _ hax, firstPos_cons_ne _ _ _ hbx]
        omega

theorem pairwise_firstPos_dedupFirst (l : List String) :
    (dedupFirst l).Pairwise (fun a b => firstPos a l < firstPos b l) :=
  pairwise_firstPos_dedupFirstAux l []

/-! ## Claim theorems: extraction and classification -/

/-- C2: the filename-extraction step (column extraction followed by
`OrderedDict.fromkeys` deduplication) produces each distinct filename exactly
once — the result has no duplicates and exactly the members of the raw
extraction — ordered by the position of the first appearance of each value in
the CSV rows. -/
theorem claim_C2_dedup_first_occurrence (rows : List (List String)) (col : String)
    (values : List String) (h : extractFiles rows col = .ok values) :
    (dedupFirst values).Nodup ∧
    (∀ x, x ∈ dedupFirst values ↔ x ∈ values) ∧
    (dedupFirst values).Pairwise (fun a b => firstPos a values < firstPos b values) :=
  ⟨nodup_dedupFirst values, fun x => mem_dedupFirst values x, pairwise_firstPos_dedupFirst values⟩

theorem claim_C2_witness :
    extractFiles [["filename"], ["a"], ["b"], ["a"]] "filename" = .ok ["a", "b", "a"] ∧
    ((dedupFirst ["a", "b", "a"]).Nodup ∧
      (∀ x, x ∈ dedupFirst ["a", "b", "a"] ↔ x ∈ ["a", "b", "a"]) ∧
      (dedupFirst ["a", "b", "a"]).Pairwise
        (fun a b => firstPos a ["a", "b", "a"] < firstPos b ["a", "b", "a"])) :=
  ⟨rfl,
   claim_C2_dedup_first_occurrence [["filename"], ["a"], ["b"], ["a"]] "filename"
     ["a", "b", "a"] rfl⟩

/-- C6: with the overwrite flag false, a filename whose joined target path
exists is classified already-exists, whatever the source existence and the
destination path length. -/
theorem claim_C6_no_overwrite_skips (cfg : Config) (fs : FS) (file : String)
    (hov : cfg.overwrite = false)
    (hex : fs.exists (pjoin cfg.target_dir file) = true) :
    classify cfg fs file = Outcome.alreadyExists := by
  simp [classify, hov, hex]

theorem claim_C6_witness :
    ({ csv_file := "f.csv", source_dir := "s", target_dir := "t", column_name := "filename",
       quiet := false, overwrite := false, dry_run := false, platform := Platform.posixLike,
       longPathsReg := none, cwd := "/c" } : Config).overwrite = false ∧
    FS.exists { files := ["t/a.txt"], dirs := ["s", "t"] } (pjoin "t" "a.txt") = true ∧
    classify
      { csv_file := "f.csv", source_dir := "s", target_dir := "t", column_name := "filename",
        quiet := false, overwrite := false, dry_run := false, platform := Platform.posixLike,
        longPathsReg := none, cwd := "/c" }
      { files := ["t/a.txt"], dirs := ["s", "t"] } "a.txt" = Outcome.alreadyExists :=
  ⟨rfl, by decide,
   claim_C6_no_overwrite_skips _ { files := ["t/a.txt"], dirs := ["s", "t"] } "a.txt" rfl
     (by decide)⟩

/-- C7: with the overwrite flag true, no filename is ever classified
already-exists; the classification is exactly the source-existence check
followed by the path-length check on the absolute destination path. -/
theorem claim_C7_overwrite_never_already_exists (cfg : Config) (fs : FS) (file : String)
    (hov : cfg.overwrite = true) :
    classify cfg fs file ≠ Outcome.alreadyExists ∧
    classify cfg fs file =
      (if fs.exists (pjoin cfg.source_dir file) then
        (if check_path_length cfg.platform cfg.longPathsReg
            (abspath cfg.cwd (pjoin cfg.target_dir file)) then
          Outcome.copied
        else Outcome.pathError)
      else Outcome.notFound) := by
  cases hs : fs.exists (pjoin cfg.source_dir file) <;>
    cases hc : check_path_length cfg.platform cfg.longPathsReg
      (abspath cfg.cwd (pjoin cfg.target_dir file)) <;>
    simp [classify, hov, hs, hc]

theorem claim_C7_witness :
    ({ csv_file := "f.csv", source_dir := "s", target_dir := "t", column_name := "filename",
       quiet := false, overwrite := true, dry_run := false, platform := Platform.posixLike,
       longPathsReg := none, cwd := "/c" } : Config).overwrite = true ∧
    classify
      { csv_file := "f.csv", source_dir := "s", target_dir := "t", column_name := "filename",
        quiet := false, overwrite := true, dry_run := false, platform := Platform.posixLike,
        longPathsReg := none, cwd := "/c" }
      { files := ["t/a.txt"], dirs := ["s", "t"] } "a.txt" ≠ Outcome.alreadyExists :=
  ⟨rfl,
   (claim_C7_overwrite_never_already_exists _ { files := ["t/a.txt"], dirs := ["s", "t"] }
     "a.txt" rfl).1⟩

/-- C8: the path-length policy always passes on platforms without the
long-path restriction; on win32 it always passes when the registry toggle is
a non-zero value, and with the toggle zero or unreadable (the conservative
default) it passes exactly when the path is shorter than 260 characters. -/
theorem claim_C8_path_length_policy :
    (∀ (reg : Option Nat) (p : String), check_path_length Platform.posixLike reg p = true) ∧
    (∀ (v : Nat) (p : String), v ≠ 0 → check_path_length Platform.win32 (some v) p = true) ∧
    (∀ p : String, (check_path_length Platform.win32 (some 0) p = true ↔ p.length < 260)) ∧
    (∀ p : String, (check_path_length Platform.win32 none p = true ↔ p.length < 260)) := by
  refine ⟨?_, ?_, ?_, ?_⟩
  · intro reg p
    simp [check_path_length, is_long_path_available]
  · intro v p hv
    simp [check_path_length, is_long_path_available, hv]
  · intro p
    simp [check_path_length, is_long_path_available]
  · intro p
    simp [check_path_length, is_long_path_available]

theorem claim_C8_witness :
    check_path_length Platform.posixLike none "x" = true ∧
    check_path_length Platform.win32 (some 1) "x" = true ∧
    (check_path_length Platform.win32 (some 0) "x" = true ↔ ("x" : String).length < 260) :=
  ⟨claim_C8_path_length_policy.1 none "x",
   claim_C8_path_length_policy.2.1 1 "x" (by decide),
   claim_C8_path_length_policy.2.2.1 "x"⟩

/-! ## Dispatch-loop lemmas -/

theorem emit_counters (cfg : Config) (st : RunState) (line : String) :
    (emit cfg st line).counters = st.counters := by
  unfold emit
  split <;> rfl

theorem emit_fs (cfg : Config) (st : RunState) (line : String) :
    (emit cfg st line).fs = st.fs := by
  unfold emit
  split <;> rfl

theorem emit_copies (cfg : Config) (st : RunState) (line : String) :
    (emit cfg st line).copies = st.copies := by
  unfold emit
  split <;> rfl

theorem counters_stepFile (cfg : Config) (st : RunState) (f : String) :
    (stepFile cfg st f).counters =
      match classify cfg st.fs f with
      | Outcome.alreadyExists => { st.counters with already_exist := st.counters.already_exist + 1 }
      | Outcome.copied => { st.counters with copied := st.counters.copied + 1 }
      | Outcome.pathError => { st.counters with path_error := st.counters.path_error + 1 }
      | Outcome.notFound => { st.counters with not_found := st.counters.not_found + 1 } := by
  unfold stepFile
  cases classify cfg st.fs f <;> simp [emit_counters] <;> split <;> simp [emit_counters]

theorem sumCounters_stepFile (cfg : Config) (st : RunState) (f : String) :
    sumCounters (stepFile cfg st f).counters = sumCounters st.counters + 1 := by
  rw [counters_stepFile]
  cases classify cfg st.fs f <;> simp [sumCounters] <;> omega

theorem dispatch_cons (cfg : Config) (st : RunState) (f : String) (files : List String) :
    dispatch cfg st (f :: files) = dispatch cfg (stepFile cfg st f) files := by
  rfl

theorem sumCounters_dispatch (cfg : Config) (files : List String) :
    ∀ st : RunState,
      sumCounters (dispatch cfg st files).counters = sumCounters st.counters + files.length := by
  induction files with
  | nil => intro st; simp [dispatch]
  | cons f fs ih =>
    intro st
    rw [dispatch_cons, ih, sumCounters_stepFile]
    simp
    omega

/-! ## Shape of `main` -/

theorem main_ok_form (cfg : Config) (rows : List (List String)) (fs0 : FS)
    (values : List String) (hex : extractFiles rows cfg.column_name = .ok values)
    (h1 : fs0.exists cfg.csv_file = true) (h2 : fs0.exists cfg.source_dir = true)
    (h3 : fs0.exists cfg.target_dir = true) :
    main cfg rows fs0 =
      MainResult.ok
        (let st := dispatch cfg
          { fs := fs0, counters := ⟨0, 0, 0, 0⟩, copies := [], output := configEcho cfg }
          (dedupFirst values)
        { st with output := st.output ++ summaryLines cfg st.counters }) := by
  unfold main
  rw [h1, h2, h3, hex]
  rfl

theorem isOk_main_elim (cfg : Config) (rows : List (List String)) (fs0 : FS)
    (hok : isOk (main cfg rows fs0) = true) :
    fs0.exists cfg.csv_file = true ∧ fs0.exists cfg.source_dir = true ∧
    fs0.exists cfg.target_dir = true ∧
    ∃ values, extractFiles rows cfg.column_name = .ok values := by
  unfold main at hok
  cases h1 : fs0.exists cfg.csv_file with
  | false => rw [h1] at hok; simp [isOk] at hok
  | true =>
  cases h2 : fs0.exists cfg.source_dir with
  | false => rw [h1, h2] at hok; simp [isOk] at hok
  | true =>
  cases h3 : fs0.exists cfg.target_dir with
  | false => rw [h1, h2, h3] at hok; simp [isOk] at hok
  | true =>
  rw [h1, h2, h3] at hok
  cases hex : extractFiles rows cfg.column_name with
  | error e =>
    cases e <;> rw [hex] at hok <;> simp [isOk] at hok
  | ok values => exact ⟨rfl, rfl, rfl, values, rfl⟩

/-- C1: for every run that reaches the dispatch loop and completes normally,
the four counters partition the deduplicated filename list: their sum equals
the number of unique filenames extracted from the CSV. -/
theorem claim_C1_counters_partition (cfg : Config) (rows : List (List String)) (fs0 : FS)
    (values : List String) (hex : extractFiles rows cfg.column_name = .ok values)
    (hok : isOk (main cfg rows fs0) = true) :
    sumCounters (countersOf (main cfg rows fs0)) = (dedupFirst values).length := by
  obtain ⟨h1, h2, h3, -⟩ := isOk_main_elim cfg rows fs0 hok
  rw [main_ok_form cfg rows fs0 values hex h1 h2 h3]
  show sumCounters (dispatch cfg _ (dedupFirst values)).counters = _
  rw [sumCounters_dispatch]
  simp [sumCounters]

theorem claim_C1_witness :
    extractFiles [["filename"], ["a"], ["b"], ["a"]] "filename" = .ok ["a", "b", "a"] ∧
    isOk (main
      { csv_file := "f.csv", source_dir := "s", target_dir := "t", column_name := "filename",
        quiet := true, overwrite := false, dry_run := false, platform := Platform.posixLike,
        longPathsReg := none, cwd := "/c" }
      [["filename"], ["a"], ["b"], ["a"]]
      { files := ["f.csv"], dirs := ["s", "t"] }) = true ∧
    sumCounters (countersOf (main
      { csv_file := "f.csv", source_dir := "s", target_dir := "t", column_name := "filename",
        quiet := true, overwrite := false, dry_run := false, platform := Platform.posixLike,
        longPathsReg := none, cwd := "/c" }
      [["filename"], ["a"], ["b"], ["a"]]
      { files := ["f.csv"], dirs := ["s", "t"] })) =
      (dedupFirst ["a", "b", "a"]).length :=
  ⟨rfl, by decide,
   claim_C1_counters_partition
     { csv_file := "f.csv", source_dir := "s", target_dir := "t", column_name := "filename",
       quiet := true, overwrite := false, dry_run := false, platform := Platform.posixLike,
       longPathsReg := none, cwd := "/c" }
     [["filename"], ["a"], ["b"], ["a"]]
     { files := ["f.csv"], dirs := ["s", "t"] } ["a", "b", "a"] rfl (by decide)⟩

/-! ## Extraction lemmas: the missing-column error -/

theorem dictLookupLast_eq_none (fieldnames row : List String) (col : String)
    (hcol : col ∉ fieldnames) :
    dictLookupLast (zipDict fieldnames row) col = none := by
  unfold dictLookupLast
  rw [Option.map_eq_none', List.find?_eq_none]
  intro e he
  have he' : e ∈ zipDict fieldnames row := List.mem_reverse.mp he
  have h1 : e.1 ∈ fieldnames := (List.of_mem_zip (by simpa using he')).1
  intro hbeq
  exact hcol ((eq_of_beq hbeq) ▸ h1)

theorem mapM_error_of_all {α β : Type} (f : α → Except Unit β) (l : List α)
    (hne : l ≠ []) (hall : ∀ x ∈ l, f x = .error ()) :
    l.mapM f = .error () := by
  cases l with
  | nil => exact absurd rfl hne
  | cons a l =>
    rw [List.mapM_cons, hall a (List.mem_cons_self a l)]
    rfl

theorem extractFiles_keyError (fieldnames : List String) (data : List (List String))
    (col : String) (r : List String) (hr : r ∈ data) (hne : r ≠ [])
    (hcol : col ∉ fieldnames) :
    extractFiles (fieldnames :: data) col = .error ExtractError.keyError := by
  have hraw : extractRaw (fieldnames :: data) col = .error () := by
    unfold extractRaw
    apply mapM_error_of_all
    · exact List.ne_nil_of_mem (List.mem_filter.mpr ⟨hr, by simpa [bne_iff_ne] using hne⟩)
    · intro x hx
      rw [dictLookupLast_eq_none fieldnames x col hcol]
  unfold extractFiles
  rw [hraw]

/-- C3 (amended): for a CSV whose header row does not contain the configured
column name and that has at least one non-blank data row, the run fails with a
usage error (`parser.error`, non-zero exit) before any per-file filesystem
operation or copy — the result carries no run-state, the dispatch loop never
starts.  (With no non-blank data rows the comprehension builds no row
dictionary, no `KeyError` is raised, and the run completes normally.) -/
theorem claim_C3_missing_column_amended (cfg : Config) (fs0 : FS)
    (header : List String) (data : List (List String)) (r : List String)
    (hr : r ∈ data) (hne : r ≠ []) (hcol : cfg.column_name ∉ header) :
    isUsageError (main cfg (header :: data) fs0) = true := by
  unfold main
  cases h1 : fs0.exists cfg.csv_file with
  | false => rfl
  | true =>
  cases h2 : fs0.exists cfg.source_dir with
  | false => rfl
  | true =>
  cases h3 : fs0.exists cfg.target_dir with
  | false => rfl
  | true =>
  rw [extractFiles_keyError header data cfg.column_name r hr hne hcol]
  rfl

theorem claim_C3_witness :
    ((["v"] : List String) ≠ []) ∧ (("filename" : String) ∉ (["a"] : List String)) ∧
    isUsageError (main
      { csv_file := "f.csv", source_dir := "s", target_dir := "t", column_name := "filename",
        quiet := true, overwrite := false, dry_run := false, platform := Platform.posixLike,
        longPathsReg := none, cwd := "/c" }
      [["a"], ["v"]] { files := ["f.csv"], dirs := ["s", "t"] }) = true :=
  ⟨by decide, by decide,
   claim_C3_missing_column_amended
     { csv_file := "f.csv", source_dir := "s", target_dir := "t", column_name := "filename",
       quiet := true, overwrite := false, dry_run := false, platform := Platform.posixLike,
       longPathsReg := none, cwd := "/c" }
     { files := ["f.csv"], dirs := ["s", "t"] } ["a"] [["v"]] ["v"]
     (List.mem_singleton.mpr rfl) (by decide) (by decide)⟩

theorem claim_C3_counterexample :
    isUsageError (main
      { csv_file := "f.csv", source_dir := "s", target_dir := "t", column_name := "filename",
        quiet := true, overwrite := false, dry_run := false, platform := Platform.posixLike,
        longPathsReg := none, cwd := "/c" }
      [["a"]] { files := ["f.csv"], dirs := ["s", "t"] }) = false ∧
    isOk (main
      { csv_file := "f.csv", source_dir := "s", target_dir := "t", column_name := "filename",
        quiet := true, overwrite := false, dry_run := false, platform := Platform.posixLike,
        longPathsReg := none, cwd := "/c" }
      [["a"]] { files := ["f.csv"], dirs := ["s", "t"] }) = true ∧
    countersOf (main
      { csv_file := "f.csv", source_dir := "s", target_dir := "t", column_name := "filename",
        quiet := true, overwrite := false, dry_run := false, platform := Platform.posixLike,
        longPathsReg := none, cwd := "/c" }
      [["a"]] { files := ["f.csv"], dirs := ["s", "t"] }) = ⟨0, 0, 0, 0⟩ := by
  refine ⟨by decide, by decide, by decide⟩

/-! ## Path-string lemmas -/

theorem string_mk_data (s : String) : String.mk s.data = s :=
  String.ext rfl

theorem data_ne_nil {s : String} (h : s ≠ "") : s.data ≠ [] :=
  fun hd => h (String.ext (hd.trans rfl))

theorem goodName_iff (f : String) : goodName f = true ↔ f ≠ "" ∧ '/' ∉ f.data := by
  simp [goodName, bne_iff_ne]

theorem startsWithSlash_false_of_good (b : String) (hne : b ≠ "") (hmem : '/' ∉ b.data) :
    startsWithSlash b = false := by
  unfold startsWithSlash
  cases hd : b.data with
  | nil => exact absurd hd (data_ne_nil hne)
  | cons c cs =>
    have hc : c ∈ b.data := by rw [hd]; exact List.mem_cons_self c cs
    have : c ≠ '/' := fun h => hmem (h ▸ hc)
    simp [this]

theorem takeWhile_append_all (p : Char → Bool) (l₁ l₂ : List Char)
    (h : ∀ c ∈ l₁, p c = true) :
    (l₁ ++ l₂).takeWhile p = l₁ ++ l₂.takeWhile p := by
  induction l₁ with
  | nil => simp
  | cons a l ih =>
    rw [List.cons_append, List.takeWhile_cons]
    rw [h a (List.mem_cons_self a l)]
    rw [ih (fun c hc => h c (List.mem_cons_of_mem a hc))]
    rfl

theorem takeWhile_stops (rest : List Char) (hr : rest.headD '/' = '/') :
    rest.takeWhile (fun c => c != '/') = [] := by
  cases rest with
  | nil => rfl
  | cons c t =>
    have : c = '/' := hr
    subst this
    simp [List.takeWhile_cons]

theorem basename_of_split (x b : String) (hx : x.data.reverse.headD '/' = '/')
    (hb : '/' ∉ b.data) :
    basename (x ++ b) = b := by
  unfold basename
  rw [String.data_append, List.reverse_append]
  rw [takeWhile_append_all _ _ _ (fun c hc => by
    have hcb : c ∈ b.data := List.mem_reverse.mp hc
    have : c ≠ '/' := fun h => hb (h ▸ hcb)
    simp [this])]
  rw [takeWhile_stops _ hx]
  rw [List.append_nil, List.reverse_reverse, string_mk_data]

theorem basename_pjoin (a b : String) (hgood : goodName b = true) :
    basename (pjoin a b) = b := by
  obtain ⟨hne, hmem⟩ := (goodName_iff b).mp hgood
  have hsw : startsWithSlash b = false := startsWithSlash_false_of_good b hne hmem
  rw [pjoin, if_neg (by rw [hsw]; exact Bool.false_ne_true)]
  by_cases hae : (a == "" || endsWithSlash a) = true
  · rw [if_pos hae]
    apply basename_of_split a b ?_ hmem
    rcases Bool.or_eq_true_iff.mp hae with h | h
    · have : a = "" := by simpa using h
      subst this
      rfl
    · unfold endsWithSlash at h
      cases hrev : a.data.reverse with
      | nil => rw [hrev] at h; simp at h
      | cons c t =>
        rw [hrev] at h
        have : c = '/' := by simpa using h
        rw [this]
        rfl
  · rw [if_neg hae]
    apply basename_of_split (a ++ "/") b ?_ hmem
    rw [String.data_append]
    simp

theorem pjoin_right_inj (a₁ b₁ a₂ b₂ : String) (h₁ : goodName b₁ = true)
    (h₂ : goodName b₂ = true) (heq : pjoin a₁ b₁ = pjoin a₂ b₂) : b₁ = b₂ := by
  have h := congrArg basename heq
  rwa [basename_pjoin _ _ h₁, basename_pjoin _ _ h₂] at h

/-! ## The empty filename -/

theorem pjoin_empty_right (t : String) (hne : t ≠ "") (hsl : endsWithSlash t = false) :
    pjoin t "" = t ++ "/" ++ "" := by
  rw [pjoin, if_neg (by simp [startsWithSlash])]
  rw [if_neg ?_]
  rw [Bool.or_eq_true_iff]
  rintro (h | h)
  · exact hne (by simpa using h)
  · rw [hsl] at h; exact Bool.false_ne_true h

theorem data_pjoin_empty (t : String) (hne : t ≠ "") (hsl : endsWithSlash t = false) :
    (pjoin t "").data = t.data ++ ['/'] := by
  rw [pjoin_empty_right t hne hsl, String.data_append, String.data_append]
  simp

theorem endsWithSlash_pjoin_empty (t : String) (hne : t ≠ "") (hsl : endsWithSlash t = false) :
    endsWithSlash (pjoin t "") = true := by
  unfold endsWithSlash
  rw [data_pjoin_empty t hne hsl]
  simp

theorem strip_pjoin_empty (t : String) (hne : t ≠ "") (hsl : endsWithSlash t = false) :
    stripTrailingSlashes (pjoin t "") = t := by
  unfold stripTrailingSlashes
  rw [data_pjoin_empty t hne hsl]
  rw [List.reverse_append]
  show String.mk ((('/' :: t.data.reverse).dropWhile (fun c => c == '/')).reverse) = t
  rw [List.dropWhile_cons]
  simp only [beq_self_eq_true, if_true]
  cases hrev : t.data.reverse with
  | nil =>
    exact absurd (by rw [← List.reverse_reverse t.data, hrev]; rfl) (data_ne_nil hne)
  | cons c cs =>
    have hc : c ≠ '/' := by
      intro hc
      unfold endsWithSlash at hsl
      rw [hrev, hc] at hsl
      simp at hsl
    rw [List.dropWhile_cons]
    simp only [hc, beq_iff_eq, if_false]
    rw [← hrev, List.reverse_reverse, string_mk_data]

/-- C4 (amended): a row whose cell under the configured column is the empty
string is treated as a literal filename and dispatched without aborting the
run; but because `os.path.join(target_dir, "")` is the target directory path
with a trailing separator, which names the existing target directory, the
empty filename is classified already-exists whenever overwrite is false and
the target directory exists — not not-found. -/
theorem claim_C4_empty_cell_amended (cfg : Config) (fs : FS)
    (hov : cfg.overwrite = false) (hne : cfg.target_dir ≠ "")
    (hsl : endsWithSlash cfg.target_dir = false) (hdir : cfg.target_dir ∈ fs.dirs) :
    classify cfg fs "" = Outcome.alreadyExists := by
  have hex : fs.exists (pjoin cfg.target_dir "") = true := by
    rw [FS.exists, if_pos (endsWithSlash_pjoin_empty _ hne hsl)]
    rw [strip_pjoin_empty _ hne hsl]
    exact decide_eq_true hdir
  simp [classify, hov, hex]

theorem claim_C4_witness :
    ({ csv_file := "f.csv", source_dir := "s", target_dir := "t", column_name := "filename",
       quiet := true, overwrite := false, dry_run := false, platform := Platform.posixLike,
       longPathsReg := none, cwd := "/c" } : Config).overwrite = false ∧
    classify
      { csv_file := "f.csv", source_dir := "s", target_dir := "t", column_name := "filename",
        quiet := true, overwrite := false, dry_run := false, platform := Platform.posixLike,
        longPathsReg := none, cwd := "/c" }
      { files := ["f.csv"], dirs := ["s", "t"] } "" = Outcome.alreadyExists :=
  ⟨rfl,
   claim_C4_empty_cell_amended _ { files := ["f.csv"], dirs := ["s", "t"] } rfl
     (by decide) (by decide) (by decide)⟩

theorem claim_C4_counterexample :
    classify
      { csv_file := "f.csv", source_dir := "s", target_dir := "t", column_name := "filename",
        quiet := true, overwrite := false, dry_run := false, platform := Platform.posixLike,
        longPathsReg := none, cwd := "/c" }
      { files := ["f.csv"], dirs := ["s", "t"] } "" ≠ Outcome.notFound ∧
    countersOf (main
      { csv_file := "f.csv", source_dir := "s", target_dir := "t", column_name := "filename",
        quiet := true, overwrite := false, dry_run := false, platform := Platform.posixLike,
        longPathsReg := none, cwd := "/c" }
      [["filename"], [""]] { files := ["f.csv"], dirs := ["s", "t"] }) = ⟨0, 0, 1, 0⟩ := by
  refine ⟨by decide, by decide⟩

/-! ## Where a performed copy reads and writes -/

theorem stepFile_copied (cfg : Config) (st : RunState) (f : String)
    (hcl : classify cfg st.fs f = Outcome.copied) (hdry : cfg.dry_run = false) :
    (stepFile cfg st f).fs = shutilCopy st.fs (pjoin cfg.source_dir f) cfg.target_dir ∧
    (stepFile cfg st f).copies = st.copies ++
      [(pjoin cfg.source_dir f, copyDestination st.fs (pjoin cfg.source_dir f) cfg.target_dir)] := by
  unfold stepFile
  rw [hcl]
  constructor <;> simp [emit, hdry] <;> split <;> rfl

/-- C9 (amended): a performed (non-dry-run) copy of a filename `f` classified
copied reads from `join(source_dir, f)` and writes into the target directory
under `basename(join(source_dir, f))` — which is exactly `join(target_dir, f)`
whenever `f` is non-empty and contains no separator; a filename containing a
separator is written under its basename instead. -/
theorem claim_C9_copy_paths_amended (cfg : Config) (st : RunState) (f : String)
    (hdry : cfg.dry_run = false) (hcl : classify cfg st.fs f = Outcome.copied)
    (hdir : st.fs.isdir cfg.target_dir = true) (hgood : goodName f = true) :
    (stepFile cfg st f).copies =
      st.copies ++ [(pjoin cfg.source_dir f, pjoin cfg.target_dir f)] ∧
    (stepFile cfg st f).fs.files = pjoin cfg.target_dir f :: st.fs.files := by
  obtain ⟨hfs, hcp⟩ := stepFile_copied cfg st f hcl hdry
  have hdest : copyDestination st.fs (pjoin cfg.source_dir f) cfg.target_dir =
      pjoin cfg.target_dir f := by
    rw [copyDestination, if_pos hdir, basename_pjoin _ _ hgood]
  constructor
  · rw [hcp, hdest]
  · rw [hfs, shutilCopy, hdest]

theorem claim_C9_witness :
    classify
      { csv_file := "f.csv", source_dir := "s", target_dir := "t", column_name := "filename",
        quiet := true, overwrite := false, dry_run := false, platform := Platform.posixLike,
        longPathsReg := none, cwd := "/c" }
      { files := ["s/a.txt"], dirs := ["s", "t"] } "a.txt" = Outcome.copied ∧
    (stepFile
      { csv_file := "f.csv", source_dir := "s", target_dir := "t", column_name := "filename",
        quiet := true, overwrite := false, dry_run := false, platform := Platform.posixLike,
        longPathsReg := none, cwd := "/c" }
      ⟨{ files := ["s/a.txt"], dirs := ["s", "t"] }, ⟨0, 0, 0, 0⟩, [], []⟩ "a.txt").copies =
      [] ++ [(pjoin "s" "a.txt", pjoin "t" "a.txt")] :=
  ⟨by decide,
   (claim_C9_copy_paths_amended
     { csv_file := "f.csv", source_dir := "s", target_dir := "t", column_name := "filename",
       quiet := true, overwrite := false, dry_run := false, platform := Platform.posixLike,
       longPathsReg := none, cwd := "/c" }
     ⟨{ files := ["s/a.txt"], dirs := ["s", "t"] }, ⟨0, 0, 0, 0⟩, [], []⟩ "a.txt"
     rfl (by decide) (by decide) (by decide)).1⟩

theorem claim_C9_counterexample :
    (stepFile
      { csv_file := "f.csv", source_dir := "s", target_dir := "t", column_name := "filename",
        quiet := true, overwrite := false, dry_run := false, platform := Platform.posixLike,
        longPathsReg := none, cwd := "/c" }
      ⟨{ files := ["s/sub/a.txt"], dirs := ["s", "t"] }, ⟨0, 0, 0, 0⟩, [], []⟩
      "sub/a.txt").copies = [("s/sub/a.txt", "t/a.txt")] ∧
    pjoin "t" "sub/a.txt" = "t/sub/a.txt" ∧
    ("t/a.txt" : String) ≠ "t/sub/a.txt" := by
  refine ⟨by decide, by decide, by decide⟩

/-! ## The quiet flag touches only standard output -/

theorem stepFile_quiet_core (cfg : Config) (q : Bool) (f : String) (st st' : RunState)
    (hfs : st.fs = st'.fs) (hc : st.counters = st'.counters) (hcp : st.copies = st'.copies) :
    (stepFile { cfg with quiet := q } st f).fs = (stepFile cfg st' f).fs ∧
    (stepFile { cfg with quiet := q } st f).counters = (stepFile cfg st' f).counters ∧
    (stepFile { cfg with quiet := q } st f).copies = (stepFile cfg st' f).copies := by
  unfold stepFile
  have hclassify : classify { cfg with quiet := q } st.fs f = classify cfg st'.fs f := by
    rw [hfs]
    rfl
  rw [hclassify]
  cases hcl : classify cfg st'.fs f <;>
    refine ⟨?_, ?_, ?_⟩ <;>
      simp only [emit_fs, emit_counters, emit_copies, hfs, hc, hcp] <;>
        (try split) <;>
          simp [emit_fs, emit_counters, emit_copies, hfs, hc, hcp]

theorem dispatch_quiet_core (cfg : Config) (q : Bool) (files : List String) :
    ∀ st st' : RunState, st.fs = st'.fs → st.counters = st'.counters → st.copies = st'.copies →
      (dispatch { cfg with quiet := q } st files).fs = (dispatch cfg st' files).fs ∧
      (dispatch { cfg with quiet := q } st files).counters = (dispatch cfg st' files).counters ∧
      (dispatch { cfg with quiet := q } st files).copies = (dispatch cfg st' files).copies := by
  induction files with
  | nil => intro st st' h1 h2 h3; exact ⟨h1, h2, h3⟩
  | cons f fs ih =>
    intro st st' h1 h2 h3
    rw [dispatch_cons, dispatch_cons]
    obtain ⟨g1, g2, g3⟩ := stepFile_quiet_core cfg q f st st' h1 h2 h3
    exact ih _ _ g1 g2 g3

theorem main_silent_quiet (cfg : Config) (q : Bool) (rows : List (List String)) (fs0 : FS) :
    (main { cfg with quiet := q } rows fs0).silent = (main cfg rows fs0).silent := by
  unfold main
  dsimp only
  cases h1 : fs0.exists cfg.csv_file with
  | false => rfl
  | true =>
  cases h2 : fs0.exists cfg.source_dir with
  | false => rfl
  | true =>
  cases h3 : fs0.exists cfg.target_dir with
  | false => rfl
  | true =>
  cases hex : extractFiles rows cfg.column_name with
  | error e => cases e <;> rfl
  | ok values =>
    obtain ⟨g1, g2, g3⟩ := dispatch_quiet_core cfg q (dedupFirst values)
      ⟨fs0, ⟨0, 0, 0, 0⟩, [], configEcho { cfg with quiet := q }⟩
      ⟨fs0, ⟨0, 0, 0, 0⟩, [], configEcho cfg⟩ rfl rfl rfl
    simp [MainResult.silent, g1, g2, g3]

/-- C10: two runs that differ only in the quiet flag coincide on everything
except standard output: exit mode and diagnostic, per-filename copies
performed, final filesystem and final counters are all identical. -/
theorem claim_C10_quiet_only_output (cfg : Config) (q₁ q₂ : Bool)
    (rows : List (List String)) (fs0 : FS) :
    (main { cfg with quiet := q₁ } rows fs0).silent =
      (main { cfg with quiet := q₂ } rows fs0).silent := by
  rw [main_silent_quiet cfg q₁ rows fs0, main_silent_quiet cfg q₂ rows fs0]

/-! ## Dry runs versus real runs -/

theorem stepFile_dry (cfg : Config) (st : RunState) (f : String) (hdry : cfg.dry_run = true) :
    (stepFile cfg st f).fs = st.fs ∧ (stepFile cfg st f).copies = st.copies := by
  unfold stepFile
  cases classify cfg st.fs f <;>
    refine ⟨?_, ?_⟩ <;>
      simp [emit_fs, emit_copies, hdry]

theorem stepFile_not_copied (cfg : Config) (st : RunState) (f : String)
    (hcl : classify cfg st.fs f ≠ Outcome.copied) :
    (stepFile cfg st f).fs = st.fs ∧ (stepFile cfg st f).copies = st.copies := by
  unfold stepFile
  cases h : classify cfg st.fs f <;>
    first
    | exact absurd h hcl
    | exact ⟨by simp [emit_fs], by simp [emit_copies]⟩

theorem strip_eq_self (t : String) (h : endsWithSlash t = false) :
    stripTrailingSlashes t = t := by
  unfold stripTrailingSlashes
  cases hrev : t.data.reverse with
  | nil =>
    have ht : t.data = [] := by rw [← List.reverse_reverse t.data, hrev]; rfl
    exact String.ext ht.symm
  | cons c cs =>
    have hc : c ≠ '/' := by
      intro hc
      unfold endsWithSlash at h
      rw [hrev, hc] at h
      simp at h
    rw [List.dropWhile_cons]
    simp only [hc, beq_iff_eq, if_false]
    rw [← hrev, List.reverse_reverse, string_mk_data]

theorem mem_files_of_exists_not_isdir (fs : FS) (t : String)
    (hex : fs.exists t = true) (hdir : fs.isdir t = false) :
    t ∈ fs.files := by
  unfold FS.exists at hex
  unfold FS.isdir at hdir
  by_cases hsl : endsWithSlash t = true
  · rw [if_pos hsl] at hex
    rw [decide_eq_true_eq] at hex
    rw [decide_eq_false_iff_not] at hdir
    exact absurd hex hdir
  · rw [if_neg hsl] at hex
    rw [decide_eq_true_eq] at hex
    rcases hex with h | h
    · exact h
    · rw [decide_eq_false_iff_not, strip_eq_self t (Bool.not_eq_true _ ▸ hsl)] at hdir
      exact absurd h hdir

theorem exists_extra_files (fs0 : FS) (W : List String) (q : String)
    (hW : ∀ w ∈ W, q = w → w ∈ fs0.files) :
    FS.exists ⟨W ++ fs0.files, fs0.dirs⟩ q = fs0.exists q := by
  unfold FS.exists
  split
  · rfl
  · rw [decide_eq_decide]
    constructor
    · rintro (h | h)
      · rcases List.mem_append.mp h with h' | h'
        · exact Or.inl (hW q h' rfl)
        · exact Or.inl h'
      · exact Or.inr h
    · rintro (h | h)
      · exact Or.inl (List.mem_append.mpr (Or.inr h))
      · exact Or.inr h

theorem classify_fs_congr (cfg : Config) (fsA fsB : FS) (f : String)
    (hs : fsA.exists (pjoin cfg.source_dir f) = fsB.exists (pjoin cfg.source_dir f))
    (ht : fsA.exists (pjoin cfg.target_dir f) = fsB.exists (pjoin cfg.target_dir f)) :
    classify cfg fsA f = classify cfg fsB f := by
  unfold classify
  rw [hs, ht]

theorem classify_dry_update (cfg : Config) (b : Bool) (fs : FS) (f : String) :
    classify { cfg with dry_run := b } fs f = classify cfg fs f := rfl

theorem countOutcomes_dry_update (cfg : Config) (b : Bool) (fs : FS) (files : List String) :
    ∀ c : Counters, countOutcomes { cfg with dry_run := b } fs c files = countOutcomes cfg fs c files := by
  induction files with
  | nil => intro c; rfl
  | cons f fs' ih =>
    intro c
    unfold countOutcomes
    rw [classify_dry_update]
    cases classify cfg fs f <;> exact ih _

theorem countOutcomes_cons (cfg : Config) (fs : FS) (c : Counters) (f : String)
    (files : List String) :
    countOutcomes cfg fs c (f :: files) =
      countOutcomes cfg fs
        (match classify cfg fs f with
         | Outcome.alreadyExists => { c with already_exist := c.already_exist + 1 }
         | Outcome.copied => { c with copied := c.copied + 1 }
         | Outcome.pathError => { c with path_error := c.path_error + 1 }
         | Outcome.notFound => { c with not_found := c.not_found + 1 }) files := by
  cases hcl : classify cfg fs f <;> simp [countOutcomes, hcl]

theorem dispatch_dry (cfg : Config) (hdry : cfg.dry_run = true) (files : List String) :
    ∀ st : RunState,
      (dispatch cfg st files).counters = countOutcomes cfg st.fs st.counters files ∧
      (dispatch cfg st files).fs = st.fs ∧ (dispatch cfg st files).copies = st.copies := by
  induction files with
  | nil => intro st; exact ⟨rfl, rfl, rfl⟩
  | cons f rest ih =>
    intro st
    rw [dispatch_cons]
    obtain ⟨hfs, hcp⟩ := stepFile_dry cfg st f hdry
    obtain ⟨i1, i2, i3⟩ := ih (stepFile cfg st f)
    refine ⟨?_, by rw [i2, hfs], by rw [i3, hcp]⟩
    rw [i1, hfs, counters_stepFile, countOutcomes_cons]

theorem isdir_congr (fsA fsB : FS) (p : String) (h : fsA.dirs = fsB.dirs) :
    fsA.isdir p = fsB.isdir p := by
  unfold FS.isdir
  rw [h]

theorem dispatch_real_counters (cfg : Config) (fs0 : FS)
    (htgt : fs0.exists cfg.target_dir = true) (files : List String) :
    ∀ (st : RunState) (W : List String),
      files.Nodup → (∀ f ∈ files, goodName f = true) →
      st.fs.dirs = fs0.dirs →
      st.fs.files = W ++ fs0.files →
      (∀ w ∈ W, w ∈ fs0.files ∨
        ∃ g, goodName g = true ∧ g ∉ files ∧ w = pjoin cfg.target_dir g) →
      (dispatch cfg st files).counters = countOutcomes cfg fs0 st.counters files := by
  induction files with
  | nil =>
    intro st W _ _ _ _ _
    rfl
  | cons f rest ih =>
    intro st W hnd hgood hdirs hfiles hW
    have hgf : goodName f = true := hgood f (List.mem_cons_self f rest)
    have hcheck : ∀ d : String, ∀ w ∈ W, pjoin d f = w → w ∈ fs0.files := by
      intro d w hw heq
      rcases hW w hw with h | ⟨g, hg, hgrest, rfl⟩
      · exact h
      · have hfg : f = g := pjoin_right_inj d f cfg.target_dir g hgf hg heq
        exact absurd (List.mem_cons_self f rest) (hfg ▸ hgrest)
    have hfs_eq : st.fs = FS.mk (W ++ fs0.files) fs0.dirs := by
      rw [← hfiles, ← hdirs]
    have hsrc : st.fs.exists (pjoin cfg.source_dir f) = fs0.exists (pjoin cfg.source_dir f) := by
      rw [hfs_eq]
      exact exists_extra_files fs0 W _ (hcheck cfg.source_dir)
    have htgtf : st.fs.exists (pjoin cfg.target_dir f) = fs0.exists (pjoin cfg.target_dir f) := by
      rw [hfs_eq]
      exact exists_extra_files fs0 W _ (hcheck cfg.target_dir)
    have hclassify : classify cfg st.fs f = classify cfg fs0 f :=
      classify_fs_congr cfg st.fs fs0 f hsrc htgtf
    have hcnt : (stepFile cfg st f).counters =
        (match classify cfg fs0 f with
         | Outcome.alreadyExists =>
           { st.counters with already_exist := st.counters.already_exist + 1 }
         | Outcome.copied => { st.counters with copied := st.counters.copied + 1 }
         | Outcome.pathError => { st.counters with path_error := st.counters.path_error + 1 }
         | Outcome.notFound => { st.counters with not_found := st.counters.not_found + 1 }) := by
      rw [counters_stepFile, hclassify]
    have hndrest : rest.Nodup := List.Nodup.of_cons hnd
    have hgoodrest : ∀ g ∈ rest, goodName g = true :=
      fun g hg => hgood g (List.mem_cons_of_mem f hg)
    rw [dispatch_cons, countOutcomes_cons]
    by_cases hch : cfg.dry_run = false ∧ classify cfg fs0 f = Outcome.copied
    · obtain ⟨hdry, hcop⟩ := hch
      obtain ⟨hfs', -⟩ := stepFile_copied cfg st f (by rw [hclassify]; exact hcop) hdry
      have hfiles' : (stepFile cfg st f).fs.files =
          (copyDestination st.fs (pjoin cfg.source_dir f) cfg.target_dir :: W) ++ fs0.files := by
        rw [hfs']
        show copyDestination st.fs (pjoin cfg.source_dir f) cfg.target_dir :: st.fs.files = _
        rw [hfiles]
        rfl
      have hdirs' : (stepFile cfg st f).fs.dirs = fs0.dirs := by
        rw [hfs']
        exact hdirs
      have hWprop' : ∀ w ∈ copyDestination st.fs (pjoin cfg.source_dir f) cfg.target_dir :: W,
          w ∈ fs0.files ∨ ∃ g, goodName g = true ∧ g ∉ rest ∧ w = pjoin cfg.target_dir g := by
        intro w hw
        rcases List.mem_cons.mp hw with rfl | hw'
        · by_cases hd : st.fs.isdir cfg.target_dir = true
          · refine Or.inr ⟨f, hgf, (List.nodup_cons.mp hnd).1, ?_⟩
            rw [copyDestination, if_pos hd, basename_pjoin _ _ hgf]
          · rw [Bool.not_eq_true] at hd
            have hd0 : fs0.isdir cfg.target_dir = false := by
              rw [← isdir_congr st.fs fs0 _ hdirs]
              exact hd
            left
            rw [copyDestination, if_neg (by rw [hd]; exact Bool.false_ne_true)]
            exact mem_files_of_exists_not_isdir fs0 cfg.target_dir htgt hd0
        · rcases hW w hw' with h | ⟨g, hg1, hg2, hg3⟩
          · exact Or.inl h
          · exact Or.inr ⟨g, hg1, fun hc => hg2 (List.mem_cons_of_mem f hc), hg3⟩
      rw [ih (stepFile cfg st f) _ hndrest hgoodrest hdirs' hfiles' hWprop', hcnt]
    · have hfs' : (stepFile cfg st f).fs = st.fs := by
        rcases not_and_or.mp hch with h | h
        · rw [Bool.not_eq_false] at h
          exact (stepFile_dry cfg st f h).1
        · exact (stepFile_not_copied cfg st f (by rw [hclassify]; exact h)).1
      have hWprop' : ∀ w ∈ W, w ∈ fs0.files ∨
          ∃ g, goodName g = true ∧ g ∉ rest ∧ w = pjoin cfg.target_dir g := by
        intro w hw
        rcases hW w hw with h | ⟨g, hg1, hg2, hg3⟩
        · exact Or.inl h
        · exact Or.inr ⟨g, hg1, fun hc => hg2 (List.mem_cons_of_mem f hc), hg3⟩
      rw [ih (stepFile cfg st f) W hndrest hgoodrest (by rw [hfs', hdirs])
        (by rw [hfs', hfiles]) hWprop', hcnt]

/-- C5 (amended): a dry run performs no filesystem writes at all; and provided
every extracted filename is non-empty and free of path separators (so that no
performed copy can disturb the existence checks of a later iteration, as it
otherwise can: a copy of `sub/x` lands on `target_dir/x` and flips the later
check for filename `x`), the four final counters of a dry run coincide with
those of the real run on the same inputs and starting filesystem. -/
theorem claim_C5_dry_run_amended (cfg : Config) (rows : List (List String)) (fs0 : FS)
    (values : List String) (hdry : cfg.dry_run = false)
    (h1 : fs0.exists cfg.csv_file = true) (h2 : fs0.exists cfg.source_dir = true)
    (h3 : fs0.exists cfg.target_dir = true)
    (hex : extractFiles rows cfg.column_name = .ok values)
    (hgood : ∀ f ∈ values, goodName f = true) :
    countersOf (main cfg rows fs0) = countersOf (main { cfg with dry_run := true } rows fs0) ∧
    fsOf (main { cfg with dry_run := true } rows fs0) = some fs0 ∧
    copiesOf (main { cfg with dry_run := true } rows fs0) = [] := by
  have hmainR := main_ok_form cfg rows fs0 values hex h1 h2 h3
  have hmainD := main_ok_form { cfg with dry_run := true } rows fs0 values hex h1 h2 h3
  rw [hmainR, hmainD]
  simp only [countersOf, fsOf, copiesOf]
  have hnodup : (dedupFirst values).Nodup := nodup_dedupFirst values
  have hgood' : ∀ f ∈ dedupFirst values, goodName f = true :=
    fun f hf => hgood f ((mem_dedupFirst values f).mp hf)
  have hreal : (dispatch cfg
      { fs := fs0, counters := ⟨0, 0, 0, 0⟩, copies := [], output := configEcho cfg }
      (dedupFirst values)).counters = countOutcomes cfg fs0 ⟨0, 0, 0, 0⟩ (dedupFirst values) :=
    dispatch_real_counters cfg fs0 h3 (dedupFirst values) _ [] hnodup hgood' rfl rfl
      (fun w hw => absurd hw (List.not_mem_nil w))
  have hdryD := dispatch_dry { cfg with dry_run := true } rfl (dedupFirst values)
    { fs := fs0, counters := ⟨0, 0, 0, 0⟩, copies := [],
      output := configEcho { cfg with dry_run := true } }
  refine ⟨?_, ?_, ?_⟩
  · rw [hreal, hdryD.1]
    exact (countOutcomes_dry_update cfg true fs0 (dedupFirst values) ⟨0, 0, 0, 0⟩).symm
  · rw [hdryD.2.1]
  · exact hdryD.2.2

theorem claim_C5_witness :
    countersOf (main
      { csv_file := "f.csv", source_dir := "s", target_dir := "t", column_name := "filename",
        quiet := true, overwrite := false, dry_run := false, platform := Platform.posixLike,
        longPathsReg := none, cwd := "/c" }
      [["filename"], ["a.txt"], ["b.txt"]] { files := ["f.csv", "s/a.txt"], dirs := ["s", "t"] }) =
      countersOf (main
        { csv_file := "f.csv", source_dir := "s", target_dir := "t", column_name := "filename",
          quiet := true, overwrite := false, dry_run := true, platform := Platform.posixLike,
          longPathsReg := none, cwd := "/c" }
        [["filename"], ["a.txt"], ["b.txt"]]
        { files := ["f.csv", "s/a.txt"], dirs := ["s", "t"] }) ∧
    copiesOf (main
      { csv_file := "f.csv", source_dir := "s", target_dir := "t", column_name := "filename",
        quiet := true, overwrite := false, dry_run := true, platform := Platform.posixLike,
        longPathsReg := none, cwd := "/c" }
      [["filename"], ["a.txt"], ["b.txt"]] { files := ["f.csv", "s/a.txt"], dirs := ["s", "t"] }) =
      [] :=
  ⟨(claim_C5_dry_run_amended
      { csv_file := "f.csv", source_dir := "s", target_dir := "t", column_name := "filename",
        quiet := true, overwrite := false, dry_run := false, platform := Platform.posixLike,
        longPathsReg := none, cwd := "/c" }
      [["filename"], ["a.txt"], ["b.txt"]] { files := ["f.csv", "s/a.txt"], dirs := ["s", "t"] }
      ["a.txt", "b.txt"] rfl (by decide) (by decide) (by decide) rfl (by decide)).1,
   (claim_C5_dry_run_amended
      { csv_file := "f.csv", source_dir := "s", target_dir := "t", column_name := "filename",
        quiet := true, overwrite := false, dry_run := false, platform := Platform.posixLike,
        longPathsReg := none, cwd := "/c" }
      [["filename"], ["a.txt"], ["b.txt"]] { files := ["f.csv", "s/a.txt"], dirs := ["s", "t"] }
      ["a.txt", "b.txt"] rfl (by decide) (by decide) (by decide) rfl (by decide)).2.2⟩

theorem claim_C10_witness :
    (main
      { csv_file := "f.csv", source_dir := "s", target_dir := "t", column_name := "filename",
        quiet := true, overwrite := false, dry_run := false, platform := Platform.posixLike,
        longPathsReg := none, cwd := "/c" }
      [["filename"], ["a.txt"]] { files := ["f.csv", "s/a.txt"], dirs := ["s", "t"] }).silent =
    (main
      { csv_file := "f.csv", source_dir := "s", target_dir := "t", column_name := "filename",
        quiet := false, overwrite := false, dry_run := false, platform := Platform.posixLike,
        longPathsReg := none, cwd := "/c" }
      [["filename"], ["a.txt"]] { files := ["f.csv", "s/a.txt"], dirs := ["s", "t"] }).silent :=
  claim_C10_quiet_only_output
    { csv_file := "f.csv", source_dir := "s", target_dir := "t", column_name := "filename",
      quiet := true, overwrite := false, dry_run := false, platform := Platform.posixLike,
      longPathsReg := none, cwd := "/c" }
    true false [["filename"], ["a.txt"]] { files := ["f.csv", "s/a.txt"], dirs := ["s", "t"] }

theorem claim_C5_counterexample :
    countersOf (main
      { csv_file := "f.csv", source_dir := "s", target_dir := "t", column_name := "filename",
        quiet := true, overwrite := false, dry_run := false, platform := Platform.posixLike,
        longPathsReg := none, cwd := "/c" }
      [["filename"], ["sub/x"], ["x"]] { files := ["f.csv", "s/sub/x"], dirs := ["s", "t"] }) =
      ⟨1, 0, 1, 0⟩ ∧
    countersOf (main
      { csv_file := "f.csv", source_dir := "s", target_dir := "t", column_name := "filename",
        quiet := true, overwrite := false, dry_run := true, platform := Platform.posixLike,
        longPathsReg := none, cwd := "/c" }
      [["filename"], ["sub/x"], ["x"]] { files := ["f.csv", "s/sub/x"], dirs := ["s", "t"] }) =
      ⟨1, 1, 0, 0⟩ := by
  refine ⟨by decide, by decide⟩

end CsvFileCopy
